import Mathlib

set_option maxRecDepth 100000

/-!
Verification of the GitHub-integration core of the baaton backend
(`src/backend/src/github/…` and `src/backend/src/routes/github/webhooks.rs`).

The Rust code is shallowly embedded: every database table is a Lean list of
row structures, every SQL statement becomes an explicit transformation of
those lists, machine integers become `Int`/`Nat`, timestamps become `Int`
seconds, UUIDs become `Nat`, and fallible Rust code returns `Except`/`Option`.
Effectful collaborators that live outside the repository (the JSON parser of
`serde_json`, the network round-trip of the token exchange, the RFC 3339
parser of `chrono`) are passed in as explicit function arguments, so that a
theorem can quantify over them.
-/

/- ── JSON values (serde_json::Value) ─────────────────────────────────── -/

/-- Model of `serde_json::Value`.  Numbers are modelled as integers only:
every payload field the verified code reads with `as_i64` is an integer in
the claims under study, and `as_i64` returns `None` on every non-number. -/
inductive Json where
  | null
  | bool (b : Bool)
  | num (n : Int)
  | str (s : String)
  | arr (elems : List Json)
  | obj (fields : List (String × Json))

/-- `Value::get(key)`: `Some` field of an object, `None` otherwise. -/
def Json.getKey (j : Json) (k : String) : Option Json :=
  match j with
  | .obj fields => (fields.find? (fun f => f.1 = k)).map (·.2)
  | _ => none

/-- `Value::index` (`payload["k"]`): the field if present, `Value::Null`
otherwise (also on non-objects). -/
def Json.idx (j : Json) (k : String) : Json :=
  (j.getKey k).getD .null

/-- `Value::as_i64`. -/
def Json.as_i64 : Json → Option Int
  | .num n => some n
  | _ => none

/-- `Value::as_str`. -/
def Json.as_str : Json → Option String
  | .str s => some s
  | _ => none

/-- `Value::as_bool`. -/
def Json.as_bool : Json → Option Bool
  | .bool b => some b
  | _ => none

/- ── Character-level models of the Rust std text functions ───────────── -/

/-- `char::is_alphanumeric` of the Rust standard library, exact on the
Unicode range U+0000–U+00FF (ASCII alphanumerics, the Latin-1 ordinal and
numeric signs, and the Latin-1 letters; U+00D7 `×` and U+00F7 `÷` are
symbols).  The Unicode tables above U+00FF live outside the repository; all
concrete inputs evaluated in this development are Latin-1. -/
def rust_is_alphanumeric (c : Char) : Bool :=
  let n := c.toNat
  (48 ≤ n && n ≤ 57) || (65 ≤ n && n ≤ 90) || (97 ≤ n && n ≤ 122) ||
  (n == 0xAA) || (n == 0xB2) || (n == 0xB3) || (n == 0xB5) || (n == 0xB9) ||
  (n == 0xBA) || (n == 0xBC) || (n == 0xBD) || (n == 0xBE) ||
  (0xC0 ≤ n && n ≤ 0xFF && n != 0xD7 && n != 0xF7)

/-- One character of `str::to_lowercase` of the Rust standard library, exact
on U+0000–U+00FF (on which the mapping is also one-to-one, so mapping it
character-wise over a string agrees with the Rust string function). -/
def rust_to_lowercase_char (c : Char) : Char :=
  let n := c.toNat
  if 65 ≤ n && n ≤ 90 then Char.ofNat (n + 32)
  else if 0xC0 ≤ n && n ≤ 0xDE && n != 0xD7 then Char.ofNat (n + 32)
  else c

/-- `str::to_lowercase` on the character list of a string. -/
def rust_to_lowercase (l : List Char) : List Char :=
  l.map rust_to_lowercase_char

/-- UTF-8 byte length of a character list (`str::len` counts bytes). -/
def utf8Len (l : List Char) : Nat :=
  (l.map Char.utf8Size).sum

/-- The Rust byte slice `&s[..n]`: the characters covering the first `n`
bytes, or `none` when `n` is not a character boundary (in which case the
Rust expression panics) or `n` is out of range. -/
def take_bytes : Nat → List Char → Option (List Char)
  | n, [] => if n = 0 then some [] else none
  | n, c :: cs =>
    if n = 0 then some []
    else if c.utf8Size ≤ n then (take_bytes (n - c.utf8Size) cs).map (c :: ·)
    else none

/-- `str::trim_end_matches('-')`: drop every trailing dash. -/
def trim_end_dashes (l : List Char) : List Char :=
  (l.reverse.dropWhile (· = '-')).reverse

/- ── issue_linker.rs: generate_branch_name ───────────────────────────── -/

/-- `generate_branch_name` of `src/backend/src/github/issue_linker.rs`.
Lower-case the title, map every non-alphanumeric character to a dash,
collapse dash runs (`split('-')`, drop empty pieces, `join("-")`), cut the
slug to its first 50 bytes when longer, trim trailing dashes, and prepend
the lower-cased display id.  The value is `none` exactly when the byte
slice `&slug[..50]` panics, i.e. when byte offset 50 falls inside a
multi-byte character. -/
def generate_branch_name (display_id title : String) : Option String :=
  let slug1 : List Char :=
    (rust_to_lowercase title.data).map
      (fun c => if rust_is_alphanumeric c then c else '-')
  let slug2 : List Char :=
    List.intercalate ['-'] ((slug1.splitOn '-').filter (· ≠ []))
  let slug3 : Option (List Char) :=
    if utf8Len slug2 > 50 then take_bytes 50 slug2 else some slug2
  slug3.map (fun s =>
    String.mk (rust_to_lowercase display_id.data ++ '-' :: trim_end_dashes s))

/- ── Helper lemmas about the slug machinery ──────────────────────────── -/

theorem utf8Len_le_of_take_bytes :
    ∀ (n : Nat) (l s : List Char), take_bytes n l = some s → utf8Len s ≤ n := by
  intro n l
  induction l generalizing n with
  | nil =>
    intro s h
    simp only [take_bytes] at h
    split at h
    · cases h; simp [utf8Len]
    · cases h
  | cons c cs ih =>
    intro s h
    simp only [take_bytes] at h
    split at h
    · cases h; simp [utf8Len]
    · split at h
      · rcases Option.map_eq_some'.mp h with ⟨s', hs', rfl⟩
        have := ih _ _ hs'
        simp only [utf8Len, List.map_cons, List.sum_cons] at *
        omega
      · cases h

theorem utf8Len_reverse (l : List Char) : utf8Len l.reverse = utf8Len l := by
  simp [utf8Len, List.sum_reverse]

theorem utf8Len_dropWhile_le (p : Char → Bool) (l : List Char) :
    utf8Len (l.dropWhile p) ≤ utf8Len l := by
  induction l with
  | nil => simp [List.dropWhile]
  | cons c cs ih =>
    rw [List.dropWhile_cons]
    split
    · simp only [utf8Len, List.map_cons, List.sum_cons] at *; omega
    · exact le_refl _

theorem utf8Len_trim_end_dashes_le (l : List Char) :
    utf8Len (trim_end_dashes l) ≤ utf8Len l := by
  unfold trim_end_dashes
  rw [utf8Len_reverse]
  calc utf8Len (l.reverse.dropWhile (· = '-')) ≤ utf8Len l.reverse :=
        utf8Len_dropWhile_le _ _
    _ = utf8Len l := utf8Len_reverse l

theorem length_le_utf8Len (l : List Char) : l.length ≤ utf8Len l := by
  induction l with
  | nil => simp [utf8Len]
  | cons c cs ih =>
    have hc : 0 < c.utf8Size := Char.utf8Size_pos c
    simp only [utf8Len, List.map_cons, List.sum_cons, List.length_cons] at *
    omega

theorem head?_dropWhile_ne (p : Char → Bool) (l : List Char) :
    ∀ c, (l.dropWhile p).head? = some c → p c = false := by
  induction l with
  | nil => intro c h; simp [List.dropWhile] at h
  | cons x xs ih =>
    intro c h
    rw [List.dropWhile_cons] at h
    by_cases hp : p x
    · rw [if_pos hp] at h; exact ih c h
    · rw [if_neg hp] at h
      simp only [List.head?, Option.some.injEq] at h
      subst h
      simpa using hp

theorem trim_end_dashes_getLast? (l : List Char) :
    (trim_end_dashes l).getLast? ≠ some '-' := by
  unfold trim_end_dashes
  intro h
  rw [List.getLast?_reverse] at h
  have := head?_dropWhile_ne _ _ _ h
  simp at this

/- ── Claims C8 and C9 ────────────────────────────────────────────────── -/

/-- C8 (amended): `generate_branch_name "BAA-42" "Fix Login Bug!!"` is
`"baa-42-fix-login-bug"`, and for every 200-character title **on which the
function returns at all** (the 50-byte cut can panic, see the
counterexample) the result is the lower-cased display id joined by a dash
to a slug of at most 50 characters (at most 50 bytes, in fact) with no
trailing dash. -/
theorem generate_branch_name_spec :
    generate_branch_name "BAA-42" "Fix Login Bug!!" = some "baa-42-fix-login-bug" ∧
    ∀ (display_id title r : String), title.length = 200 →
      generate_branch_name display_id title = some r →
      ∃ slug : List Char,
        r = String.mk (rust_to_lowercase display_id.data ++ '-' :: slug) ∧
        slug.length ≤ 50 ∧ utf8Len slug ≤ 50 ∧ slug.getLast? ≠ some '-' := by
  constructor
  · decide
  · intro display_id title r _ h
    simp only [generate_branch_name] at h
    set s2 : List Char :=
      List.intercalate ['-']
        (((((rust_to_lowercase title.data).map
          (fun c => if rust_is_alphanumeric c then c else '-')).splitOn '-').filter (· ≠ [])))
      with hs2
    rcases Option.map_eq_some'.mp h with ⟨s, hs, rfl⟩
    have hle : utf8Len s ≤ 50 := by
      by_cases h50 : utf8Len s2 > 50
      · rw [if_pos h50] at hs
        exact utf8Len_le_of_take_bytes _ _ _ hs
      · rw [if_neg h50] at hs
        cases hs
        omega
    refine ⟨trim_end_dashes s, rfl, ?_, ?_, ?_⟩
    · exact le_trans (length_le_utf8Len _)
        (le_trans (utf8Len_trim_end_dashes_le _) hle)
    · exact le_trans (utf8Len_trim_end_dashes_le _) hle
    · exact trim_end_dashes_getLast? _

/-- C8 counterexample: a 200-character title on which `generate_branch_name`
produces no result at all: the slug is 399 bytes long, and byte offset 50
falls inside the UTF-8 encoding of a two-byte character, so the Rust byte
slice `&slug[..50]` panics.  The original claim promised a result for
every 200-character title. -/
theorem generate_branch_name_200_char_cex :
    ("a" ++ String.mk (List.replicate 199 'é')).length = 200 ∧
    generate_branch_name "BAA-42" ("a" ++ String.mk (List.replicate 199 'é')) = none := by
  constructor
  · decide
  · decide

/-- C9: the claim that `generate_branch_name` is total on Unicode input is
right as a specification but wrong of the code: on the 26-character title
below (51 slug bytes) the 50-byte cut lands inside the two-byte encoding of
`é` and the Rust slice `&slug[..50]` panics, modelled here as `none`. -/
theorem generate_branch_name_panic :
    generate_branch_name "BAA-1" "aééééééééééééééééééééééééé" = none ∧
    ("aééééééééééééééééééééééééé" : String).length = 26 := by
  constructor
  · decide
  · decide

/- ── status_mapper.rs ────────────────────────────────────────────────── -/

/-- The columns of the `issues` table read or written by
`apply_status_mapping` (`src/backend/src/github/status_mapper.rs`). -/
structure IssueRow where
  id : Nat
  status : String
  sync_source : Option String
  sync_lock_until : Option Int
  updated_at : Int

/-- The SQL guard `sync_lock_until IS NULL OR sync_lock_until < now()`. -/
def sync_lock_expired (now : Int) (r : IssueRow) : Bool :=
  match r.sync_lock_until with
  | none => true
  | some t => t < now

/-- The SET clause of the guarded UPDATE: status, provenance, a fresh
anti-echo lock of `now() + interval '5 seconds'`, and `updated_at`. -/
def apply_status_update (now : Int) (new_status : String) (r : IssueRow) : IssueRow :=
  { r with
    status := new_status
    sync_source := some "github"
    sync_lock_until := some (now + 5)
    updated_at := now }

/-- `apply_status_mapping` of `src/backend/src/github/status_mapper.rs`.
Looks up `mapping_key` in the `status_mapping` JSON; a missing or non-string
value is a no-op returning `Ok`.  Otherwise runs the guarded UPDATE on every
row with the given id whose anti-echo lock has expired.  The second
component of the result is `rows_affected`; the function itself never
returns an error (database connectivity failures are outside the model). -/
def apply_status_mapping (now : Int) (issues : List IssueRow) (issue_id : Nat)
    (status_mapping : Json) (mapping_key : String) :
    Except String (List IssueRow × Nat) :=
  match status_mapping.getKey mapping_key with
  | some (.str new_status) =>
    .ok (issues.map (fun r =>
          if r.id == issue_id && sync_lock_expired now r then
            apply_status_update now new_status r
          else r),
        issues.countP (fun r => r.id == issue_id && sync_lock_expired now r))
  | _ => .ok (issues, 0)

/-- C3: on an issue whose sync lock is unset or expired, and a mapping key
bound to a string, two calls within 5 seconds change the status exactly
once: the first call affects exactly one row, writing the new status and a
lock of `now1 + 5`; the second call (at any `now2 ≤ now1 + 5`) affects zero
rows, leaves the table unchanged, and still returns success. -/
theorem apply_status_mapping_anti_echo
    (now1 now2 : Int) (issues : List IssueRow) (issue_id : Nat)
    (status_mapping : Json) (mapping_key new_status : String)
    (hkey : status_mapping.getKey mapping_key = some (.str new_status))
    (hone : issues.countP (fun r => r.id == issue_id) = 1)
    (hunlocked : ∀ r ∈ issues, r.id = issue_id → sync_lock_expired now1 r = true)
    (h12 : now1 ≤ now2) (h5 : now2 ≤ now1 + 5) :
    ∃ issues1,
      apply_status_mapping now1 issues issue_id status_mapping mapping_key =
        .ok (issues1, 1) ∧
      (∀ r ∈ issues1, r.id = issue_id →
        r.status = new_status ∧ r.sync_lock_until = some (now1 + 5)) ∧
      apply_status_mapping now2 issues1 issue_id status_mapping mapping_key =
        .ok (issues1, 0) := by
  refine ⟨issues.map (fun r =>
      if r.id == issue_id && sync_lock_expired now1 r then
        apply_status_update now1 new_status r
      else r), ?_, ?_, ?_⟩
  · simp only [apply_status_mapping, hkey]
    have hcount : issues.countP (fun r => r.id == issue_id && sync_lock_expired now1 r) =
        issues.countP (fun r => r.id == issue_id) := by
      apply List.countP_congr
      intro r hr
      by_cases hid : r.id = issue_id
      · simp [hid, hunlocked r hr hid]
      · simp [hid]
    rw [hcount, hone]
  · intro r hr hid
    rcases List.mem_map.mp hr with ⟨r0, hr0, rfl⟩
    by_cases hg : (r0.id == issue_id && sync_lock_expired now1 r0) = true
    · rw [if_pos hg]
      exact ⟨rfl, rfl⟩
    · rw [if_neg hg] at hid ⊢
      have hid0 : r0.id = issue_id := hid
      have := hunlocked r0 hr0 hid0
      simp [hid0, this] at hg
  · simp only [apply_status_mapping, hkey]
    have hfix : ∀ r ∈ issues.map (fun r =>
        if r.id == issue_id && sync_lock_expired now1 r then
          apply_status_update now1 new_status r
        else r),
        (r.id == issue_id && sync_lock_expired now2 r) = false := by
      intro r hr
      rcases List.mem_map.mp hr with ⟨r0, hr0, rfl⟩
      by_cases hg : (r0.id == issue_id && sync_lock_expired now1 r0) = true
      · rw [if_pos hg]
        have : sync_lock_expired now2 (apply_status_update now1 new_status r0) = false := by
          simp only [sync_lock_expired, apply_status_update]
          simp only [decide_eq_false_iff_not]
          omega
        simp [this]
      · rw [if_neg hg]
        by_cases hid : r0.id = issue_id
        · have := hunlocked r0 hr0 hid
          simp [hid, this] at hg
        · simp [hid]
    have hmap : List.map (fun r =>
        if r.id == issue_id && sync_lock_expired now2 r then
          apply_status_update now2 new_status r
        else r) (issues.map (fun r =>
          if r.id == issue_id && sync_lock_expired now1 r then
            apply_status_update now1 new_status r
          else r)) = issues.map (fun r =>
          if r.id == issue_id && sync_lock_expired now1 r then
            apply_status_update now1 new_status r
          else r) := by
      conv_rhs => rw [← List.map_id (issues.map (fun r =>
        if r.id == issue_id && sync_lock_expired now1 r then
          apply_status_update now1 new_status r
        else r))]
      apply List.map_congr_left
      intro a ha
      simp [hfix a ha]
    have hcnt : List.countP (fun r => r.id == issue_id && sync_lock_expired now2 r)
        (issues.map (fun r =>
          if r.id == issue_id && sync_lock_expired now1 r then
            apply_status_update now1 new_status r
          else r)) = 0 := by
      apply List.countP_eq_zero.mpr
      intro a ha
      simp [hfix a ha]
    rw [hmap, hcnt]

/-- Witness for C3: a concrete one-row issue table, a concrete mapping, and
two calls 3 seconds apart. -/
theorem apply_status_mapping_anti_echo_witness :
    ∃ issues1,
      apply_status_mapping 100 [⟨1, "todo", none, none, 0⟩] 1
        (Json.obj [("pr_merged", .str "done")]) "pr_merged" = .ok (issues1, 1) ∧
      (∀ r ∈ issues1, r.id = 1 →
        r.status = "done" ∧ r.sync_lock_until = some 105) ∧
      apply_status_mapping 103 issues1 1
        (Json.obj [("pr_merged", .str "done")]) "pr_merged" = .ok (issues1, 0) :=
  apply_status_mapping_anti_echo 100 103 [⟨1, "todo", none, none, 0⟩] 1
    (Json.obj [("pr_merged", .str "done")]) "pr_merged" "done"
    rfl (by decide)
    (by
      intro r hr _
      rw [List.mem_singleton] at hr
      subst hr
      rfl)
    (by norm_num) (by norm_num)

/- ── Webhook event rows (github_webhook_events) ──────────────────────── -/

/-- A row of `github_webhook_events` (`GitHubWebhookEvent` in
`src/backend/src/models/github.rs`), minus the surrogate `id` and
`created_at` columns, which no verified code path reads.  `retry_count`
has database default 0 and `status` starts as `'pending'`. -/
structure WebhookRow where
  delivery_id : String
  event_type : String
  action : Option String
  installation_id : Option Int
  repository_full_name : Option String
  sender_login : Option String
  payload : Json
  status : String
  error_message : Option String
  processed_at : Option Int
  retry_count : Int

/- ── webhook_processor.rs: result bookkeeping ────────────────────────── -/

/-- `process_webhook_event` of `src/backend/src/github/webhook_processor.rs`.
The type-specific dispatch (the `match event.event_type` block, whose arms
perform their own database work and may fail) is passed in as `handler`;
this function models the surrounding bookkeeping on the
`github_webhook_events` table: mark `processing`, fetch the row (an absent
row makes `fetch_one` fail and the error propagates with no further
update), run the handler, then mark `completed` with a timestamp on
success, or bump `retry_count` and mark `failed`/`pending` with the error
message on failure — finally returning the handler's own result. -/
def process_webhook_event (handler : WebhookRow → Except String Unit)
    (now : Int) (events : List WebhookRow) (delivery_id : String) :
    Except String Unit × List WebhookRow :=
  let events1 := events.map (fun r =>
    if r.delivery_id == delivery_id then { r with status := "processing" } else r)
  match events1.find? (fun r => r.delivery_id == delivery_id) with
  | none => (.error "RowNotFound", events1)
  | some event =>
    match handler event with
    | .ok () =>
      (.ok (), events1.map (fun r =>
        if r.delivery_id == delivery_id then
          { r with
            status := "completed"
            processed_at := some now }
        else r))
    | .error e =>
      let retry_count := event.retry_count + 1
      let new_status := if retry_count ≥ 3 then "failed" else "pending"
      (.error e, events1.map (fun r =>
        if r.delivery_id == delivery_id then
          { r with
            status := new_status
            error_message := some e
            retry_count := retry_count }
        else r))

/-- C5: for a stored event, `process_webhook_event` marks it `completed`
with a timestamp when the handler succeeds; on handler failure it sets
`retry_count` to the old value plus one, marks the event `failed` exactly
when that new count reaches 3 and `pending` otherwise, records the error
message, and in every case returns the handler's own result to the
caller. -/
theorem process_webhook_event_bookkeeping
    (handler : WebhookRow → Except String Unit) (now : Int)
    (events : List WebhookRow) (delivery_id : String) (ev : WebhookRow)
    (hfind : events.find? (fun r => r.delivery_id == delivery_id) = some ev) :
    (handler { ev with status := "processing" } = .ok () →
      process_webhook_event handler now events delivery_id =
        (.ok (), events.map (fun r =>
          if r.delivery_id == delivery_id then
            { r with
              status := "completed"
              processed_at := some now }
          else r))) ∧
    (∀ e, handler { ev with status := "processing" } = .error e →
      process_webhook_event handler now events delivery_id =
        (.error e, events.map (fun r =>
          if r.delivery_id == delivery_id then
            { r with
              status := if ev.retry_count + 1 ≥ 3 then "failed" else "pending"
              error_message := some e
              retry_count := ev.retry_count + 1 }
          else r)) ∧
      (ev.retry_count + 1 ≥ 3 →
        (if ev.retry_count + 1 ≥ 3 then "failed" else "pending") = "failed") ∧
      (ev.retry_count + 1 < 3 →
        (if ev.retry_count + 1 ≥ 3 then "failed" else "pending") = "pending")) := by
  have hfind1 : (events.map (fun r =>
      if r.delivery_id == delivery_id then { r with status := "processing" } else r)).find?
        (fun r => r.delivery_id == delivery_id) =
      some { ev with status := "processing" } := by
    rw [List.find?_map]
    have hp : ((fun (r : WebhookRow) => r.delivery_id == delivery_id) ∘
        (fun r => if r.delivery_id == delivery_id then { r with status := "processing" } else r)) =
        (fun r => r.delivery_id == delivery_id) := by
      funext r
      by_cases h : r.delivery_id == delivery_id
      · simp [Function.comp, h]
      · simp [Function.comp, h]
    rw [hp, hfind]
    have hev := List.find?_some hfind
    simp only [Option.map_some']
    rw [if_pos hev]
  constructor
  · intro hok
    simp only [process_webhook_event, hfind1, hok, List.map_map, Prod.mk.injEq,
      true_and]
    apply List.map_congr_left
    intro r _
    by_cases h : r.delivery_id == delivery_id
    · simp [Function.comp, h]
    · simp [Function.comp, h]
  · intro e herr
    simp only [process_webhook_event, hfind1, herr, List.map_map]
    refine ⟨?_, fun h => if_pos h, fun h => if_neg (by omega)⟩
    simp only [Prod.mk.injEq, true_and]
    apply List.map_congr_left
    intro r _
    by_cases h : r.delivery_id == delivery_id
    · simp [Function.comp, h]
    · simp [Function.comp, h]

/-- Witness for C5: a concrete one-row event table whose handler fails with
`"boom"`; the stored row moves to `pending` with `retry_count` 2 and the
original error is returned. -/
theorem process_webhook_event_bookkeeping_witness :
    ([⟨"d1", "push", none, none, none, none, Json.null, "pending", none, none, 1⟩] :
        List WebhookRow).find? (fun r => r.delivery_id == "d1") =
      some ⟨"d1", "push", none, none, none, none, Json.null, "pending", none, none, 1⟩ ∧
    process_webhook_event (fun _ => .error "boom") 50
        [⟨"d1", "push", none, none, none, none, Json.null, "pending", none, none, 1⟩] "d1" =
      (.error "boom",
        [⟨"d1", "push", none, none, none, none, Json.null, "pending", some "boom", none, 2⟩]) :=
  ⟨rfl, by
    have h := (process_webhook_event_bookkeeping (fun _ => .error "boom") 50
      [⟨"d1", "push", none, none, none, none, Json.null, "pending", none, none, 1⟩] "d1"
      ⟨"d1", "push", none, none, none, none, Json.null, "pending", none, none, 1⟩ rfl).2
      "boom" rfl
    exact h.1.trans (by rfl)⟩

/- ── webhook_processor.rs: installation events ───────────────────────── -/

/-- A row of `github_installations` (`GitHubInstallation` in
`src/backend/src/models/github.rs`). -/
structure InstallationRow where
  id : Nat
  org_id : String
  installation_id : Int
  github_account_id : Int
  github_account_login : String
  github_account_type : String
  permissions : Json
  status : String
  installed_by : Option String
  created_at : Int
  updated_at : Int

/-- A row of `github_repositories` (`GitHubRepository` in
`src/backend/src/models/github.rs`). -/
structure RepositoryRow where
  id : Nat
  installation_id : Int
  github_repo_id : Int
  owner : String
  name : String
  full_name : String
  default_branch : String
  is_private : Bool
  last_synced_at : Option Int
  created_at : Int
  updated_at : Int

/-- A row of `github_repo_mappings` (`GitHubRepoMapping` in
`src/backend/src/models/github.rs`). -/
structure RepoMappingRow where
  id : Nat
  project_id : Nat
  github_repo_id : Int
  sync_direction : String
  sync_issues : Bool
  sync_prs : Bool
  sync_comments : Bool
  auto_create_issues : Bool
  status_mapping : Json
  is_active : Bool
  created_at : Int
  updated_at : Int

/-- The tables touched by `handle_installation_event`. -/
structure InstallationState where
  installations : List InstallationRow
  repositories : List RepositoryRow
  repo_mappings : List RepoMappingRow

/-- `handle_installation_event` of
`src/backend/src/github/webhook_processor.rs`.  Action `deleted` requires
`payload["installation"]["id"]` (`as_i64`, error when missing — the error
occurs before any update runs, so `.error` leaves every table as it was);
`suspend`/`unsuspend` default a missing id to 0 (`unwrap_or(0)`) and flip
the status of every installation row with that id; other actions are
ignored. -/
def handle_installation_event (now : Int) (st : InstallationState)
    (event : WebhookRow) : Except String InstallationState :=
  let action := event.action.getD ""
  let payload := event.payload
  match action with
  | "deleted" =>
    match ((payload.idx "installation").idx "id").as_i64 with
    | none => .error "Missing installation.id"
    | some installation_id =>
      .ok { st with
        installations := st.installations.map (fun r =>
          if r.installation_id == installation_id then
            { r with status := "removed", updated_at := now }
          else r)
        repo_mappings := st.repo_mappings.map (fun m =>
          if st.repositories.any (fun rp =>
              rp.installation_id == installation_id &&
              rp.github_repo_id == m.github_repo_id) then
            { m with is_active := false, updated_at := now }
          else m) }
  | "suspend" =>
    let installation_id := (((payload.idx "installation").idx "id").as_i64).getD 0
    .ok { st with
      installations := st.installations.map (fun r =>
        if r.installation_id == installation_id then
          { r with status := "suspended", updated_at := now }
        else r) }
  | "unsuspend" =>
    let installation_id := (((payload.idx "installation").idx "id").as_i64).getD 0
    .ok { st with
      installations := st.installations.map (fun r =>
        if r.installation_id == installation_id then
          { r with status := "active", updated_at := now }
        else r) }
  | _ => .ok st

/-- C10: on an `installation` event whose payload lacks a numeric
`installation.id`: `suspend`/`unsuspend` succeed while updating zero
installation rows — the missing id defaults to 0, so this holds whenever no
installation row carries id 0 — and touch no other table (the state is
returned unchanged); `deleted` instead fails with an error before any
update has run, leaving every table unchanged and the stored event eligible
for the retry path. -/
theorem handle_installation_event_missing_id
    (now : Int) (st : InstallationState) (event : WebhookRow)
    (hmiss : ((event.payload.idx "installation").idx "id").as_i64 = none)
    (hno0 : ∀ r ∈ st.installations, r.installation_id ≠ 0) :
    (event.action = some "suspend" →
      handle_installation_event now st event = .ok st) ∧
    (event.action = some "unsuspend" →
      handle_installation_event now st event = .ok st) ∧
    (event.action = some "deleted" →
      handle_installation_event now st event = .error "Missing installation.id") := by
  have hmapS : ∀ (s : String), st.installations.map (fun r =>
      if r.installation_id == (0 : Int) then { r with status := s, updated_at := now }
      else r) = st.installations := by
    intro s
    conv_rhs => rw [← List.map_id st.installations]
    apply List.map_congr_left
    intro r hr
    have h0 := hno0 r hr
    simp [h0]
  refine ⟨?_, ?_, ?_⟩ <;> intro ha
  · simp only [handle_installation_event, ha, Option.getD_some, hmiss, Option.getD_none]
    rw [hmapS "suspended"]
  · simp only [handle_installation_event, ha, Option.getD_some, hmiss, Option.getD_none]
    rw [hmapS "active"]
  · simp only [handle_installation_event, ha, Option.getD_some, hmiss, Option.getD_none]

/-- Witness for C10: a one-installation state and an `installation` payload
whose `installation` object has no `id` field; `suspend` is a no-op success
and `deleted` is an error. -/
theorem handle_installation_event_missing_id_witness :
    ((((Json.obj [("installation", Json.obj [])]).idx "installation").idx "id").as_i64 = none) ∧
    handle_installation_event 10
      ⟨[⟨1, "org", 5, 10, "acct", "Organization", Json.null, "active", none, 0, 0⟩], [], []⟩
      ⟨"d2", "installation", some "suspend", none, none, none,
        Json.obj [("installation", Json.obj [])], "pending", none, none, 0⟩ =
      .ok ⟨[⟨1, "org", 5, 10, "acct", "Organization", Json.null, "active", none, 0, 0⟩], [], []⟩ ∧
    handle_installation_event 10
      ⟨[⟨1, "org", 5, 10, "acct", "Organization", Json.null, "active", none, 0, 0⟩], [], []⟩
      ⟨"d3", "installation", some "deleted", none, none, none,
        Json.obj [("installation", Json.obj [])], "pending", none, none, 0⟩ =
      .error "Missing installation.id" :=
  ⟨rfl,
    (handle_installation_event_missing_id 10
      ⟨[⟨1, "org", 5, 10, "acct", "Organization", Json.null, "active", none, 0, 0⟩], [], []⟩
      ⟨"d2", "installation", some "suspend", none, none, none,
        Json.obj [("installation", Json.obj [])], "pending", none, none, 0⟩
      rfl (by decide)).1 rfl,
    (handle_installation_event_missing_id 10
      ⟨[⟨1, "org", 5, 10, "acct", "Organization", Json.null, "active", none, 0, 0⟩], [], []⟩
      ⟨"d3", "installation", some "deleted", none, none, none,
        Json.obj [("installation", Json.obj [])], "pending", none, none, 0⟩
      rfl (by decide)).2.2 rfl⟩

/- ── jobs.rs: claim/retry of sync jobs ───────────────────────────────── -/

/-- A row of `github_sync_jobs` (`GitHubSyncJob` in
`src/backend/src/models/github.rs`, minus the foreign keys `issue_id` and
`github_repo_id`, which `process_next_job` never reads). -/
structure SyncJobRow where
  id : Nat
  job_type : String
  payload : Json
  status : String
  priority : Int
  max_retries : Int
  retry_count : Int
  last_error : Option String
  scheduled_at : Int
  started_at : Option Int
  completed_at : Option Int

/-- The WHERE clause of the claim subquery:
`status = 'pending' AND scheduled_at <= now()`. -/
def job_eligible (now : Int) (j : SyncJobRow) : Bool :=
  j.status == "pending" && j.scheduled_at ≤ now

/-- `ORDER BY priority DESC, scheduled_at ASC LIMIT 1` over the eligible
rows, as a deterministic fold (SQL leaves ties unordered; the fold keeps
the first of tied rows). -/
def pick_job (now : Int) (jobs : List SyncJobRow) : Option SyncJobRow :=
  (jobs.filter (job_eligible now)).foldl
    (fun acc j =>
      match acc with
      | none => some j
      | some a =>
        if j.priority > a.priority ||
            (j.priority == a.priority && j.scheduled_at < a.scheduled_at) then
          some j
        else some a)
    none

/-- `process_next_job` of `src/backend/src/github/jobs.rs`.  Atomically
claim the best eligible job (mark it `processing` with `started_at`),
dispatch it, then mark `completed`, or on failure run the single UPDATE
that bumps `retry_count`, records the error, sets
`scheduled_at = now() + power(5, retry_count + 1) seconds` and moves the
row to `dead` when `retry_count + 1 >= max_retries` and back to `pending`
otherwise (all right-hand sides read the pre-update row values).  The
dispatch itself — the `match job_type` block, every arm of which returns
`Ok(())` until the full sync engine lands — is passed in as `dispatch` so
that the failure branch can be exercised.  Returns `true` when a job was
claimed, `false` when none was eligible. -/
def process_next_job (dispatch : String → Json → Except String Unit)
    (now : Int) (jobs : List SyncJobRow) : Bool × List SyncJobRow :=
  match pick_job now jobs with
  | none => (false, jobs)
  | some j =>
    let jobs1 := jobs.map (fun r =>
      if r.id == j.id then { r with status := "processing", started_at := some now }
      else r)
    match dispatch j.job_type j.payload with
    | .ok () =>
      (true, jobs1.map (fun r =>
        if r.id == j.id then { r with status := "completed", completed_at := some now }
        else r))
    | .error e =>
      (true, jobs1.map (fun r =>
        if r.id == j.id then
          { r with
            status := if r.retry_count + 1 ≥ r.max_retries then "dead" else "pending"
            last_error := some e
            retry_count := r.retry_count + 1
            scheduled_at := now + 5 ^ (r.retry_count + 1).toNat }
        else r))

/-- C6: when the dispatch of a claimed job fails, the runner bumps
`retry_count` and moves the job to `dead` exactly when
`retry_count + 1 >= max_retries` — never before, never after — and
otherwise back to `pending` with `scheduled_at = now + 5^(retry_count+1)`
seconds and the error message recorded. -/
theorem process_next_job_failure_backoff
    (dispatch : String → Json → Except String Unit) (now : Int)
    (jobs : List SyncJobRow) (j : SyncJobRow) (e : String)
    (hpick : pick_job now jobs = some j)
    (huniq : ∀ r ∈ jobs, r.id = j.id → r = j)
    (hfail : dispatch j.job_type j.payload = .error e) :
    process_next_job dispatch now jobs =
      (true, jobs.map (fun r =>
        if r.id == j.id then
          { j with
            status := if j.retry_count + 1 ≥ j.max_retries then "dead" else "pending"
            last_error := some e
            retry_count := j.retry_count + 1
            scheduled_at := now + 5 ^ (j.retry_count + 1).toNat
            started_at := some now }
        else r)) ∧
    (j.retry_count + 1 ≥ j.max_retries →
      (if j.retry_count + 1 ≥ j.max_retries then "dead" else "pending") = "dead") ∧
    (j.retry_count + 1 < j.max_retries →
      (if j.retry_count + 1 ≥ j.max_retries then "dead" else "pending") = "pending") := by
  refine ⟨?_, fun h => if_pos h, fun h => if_neg (by omega)⟩
  simp only [process_next_job, hpick, hfail, List.map_map, Prod.mk.injEq, true_and]
  apply List.map_congr_left
  intro r hr
  by_cases h : r.id == j.id
  · have hrj : r = j := huniq r hr (by simpa using h)
    subst hrj
    simp [Function.comp, h]
  · simp [Function.comp, h]

/-- Witness for C6: one pending job with `max_retries` 3 whose dispatch
fails; it is rescheduled to `pending` at `now + 5^1` seconds with
`retry_count` 1. -/
theorem process_next_job_failure_backoff_witness :
    pick_job 100 [⟨1, "sync_pr", Json.null, "pending", 0, 3, 0, none, 0, none, none⟩] =
      some ⟨1, "sync_pr", Json.null, "pending", 0, 3, 0, none, 0, none, none⟩ ∧
    process_next_job (fun _ _ => .error "net") 100
        [⟨1, "sync_pr", Json.null, "pending", 0, 3, 0, none, 0, none, none⟩] =
      (true, [⟨1, "sync_pr", Json.null, "pending", 0, 3, 1, some "net", 105, some 100, none⟩]) :=
  ⟨rfl, by
    have h := (process_next_job_failure_backoff (fun _ _ => .error "net") 100
      [⟨1, "sync_pr", Json.null, "pending", 0, 3, 0, none, 0, none, none⟩]
      ⟨1, "sync_pr", Json.null, "pending", 0, 3, 0, none, 0, none, none⟩ "net"
      rfl
      (by
        intro r hr _
        rw [List.mem_singleton] at hr
        exact hr)
      rfl).1
    exact h.trans (by rfl)⟩

/- ── client.rs: installation-token cache ─────────────────────────────── -/

/-- `CachedToken` of `src/backend/src/github/client.rs`: an installation
token together with its expiry instant. -/
structure CachedToken where
  token : String
  expires_at : Int

/-- `HashMap::get` on the token cache, modelled as an association list. -/
def cache_get (cache : List (Nat × CachedToken)) (installation_id : Nat) :
    Option CachedToken :=
  (cache.find? (fun p => p.1 == installation_id)).map (·.2)

/-- `HashMap::insert`: replace any entry for the key. -/
def cache_insert (cache : List (Nat × CachedToken)) (installation_id : Nat)
    (ct : CachedToken) : List (Nat × CachedToken) :=
  (installation_id, ct) :: cache.filter (fun p => p.1 != installation_id)

/-- The outcome of `GitHubClient::for_installation`: the token handed to the
`Octocrab` builder (or the error), whether the token-issuance endpoint was
called, and the cache afterwards. -/
structure ForInstallationResult where
  token : Except String String
  exchanged : Bool
  cache : List (Nat × CachedToken)

/-- The refresh path of `for_installation`: sign a fresh App JWT, exchange
it for an installation token (the provider's JSON response is the argument
`token_response`), parse the expiry, and replace the cache entry.  A
response without a `"token"` string is an error; the expiry falls back to
now + 55 minutes when `"expires_at"` is absent or unparsable. -/
def for_installation_refresh (parse_rfc3339 : String → Option Int) (now : Int)
    (cache : List (Nat × CachedToken)) (installation_id : Nat)
    (token_response : Json) : ForInstallationResult :=
  match (token_response.idx "token").as_str with
  | none => ⟨.error "No token in installation access_tokens response", true, cache⟩
  | some token =>
    let expires_at :=
      match (token_response.idx "expires_at").as_str with
      | some exp_str =>
        match parse_rfc3339 exp_str with
        | some t => t
        | none => now + 55 * 60
      | none => now + 55 * 60
    ⟨.ok token, true, cache_insert cache installation_id ⟨token, expires_at⟩⟩

/-- `for_installation` of `src/backend/src/github/client.rs`.  A cached
token with more than 5 minutes of remaining validity is reused with no
token exchange; otherwise the refresh path runs. -/
def for_installation (parse_rfc3339 : String → Option Int) (now : Int)
    (cache : List (Nat × CachedToken)) (installation_id : Nat)
    (token_response : Json) : ForInstallationResult :=
  match cache_get cache installation_id with
  | some cached =>
    if cached.expires_at > now + 5 * 60 then
      ⟨.ok cached.token, false, cache⟩
    else
      for_installation_refresh parse_rfc3339 now cache installation_id token_response
  | none =>
    for_installation_refresh parse_rfc3339 now cache installation_id token_response

theorem cache_get_insert_self (cache : List (Nat × CachedToken)) (iid : Nat)
    (ct : CachedToken) : cache_get (cache_insert cache iid ct) iid = some ct := by
  simp [cache_get, cache_insert]

theorem cache_get_insert_ne (cache : List (Nat × CachedToken)) (iid j : Nat)
    (ct : CachedToken) (h : j ≠ iid) :
    cache_get (cache_insert cache iid ct) j = cache_get cache j := by
  simp only [cache_get, cache_insert]
  rw [List.find?_cons_of_neg _ (by simpa using fun hj => h hj.symm)]
  congr 1
  induction cache with
  | nil => rfl
  | cons x xs ih =>
    by_cases hxi : x.1 = iid
    · have hxj : (x.1 == j) = false := by
        rw [hxi]
        exact beq_eq_false_iff_ne.mpr fun hj => h hj.symm
      rw [List.filter_cons, if_neg (by simp [hxi]), ih, List.find?_cons]
      simp [hxj]
    · rw [List.filter_cons, if_pos (by simp [hxi]), List.find?_cons, List.find?_cons]
      by_cases hxj : (x.1 == j) = true
      · simp [hxj]
      · simp only [Bool.not_eq_true] at hxj
        simp [hxj, ih]

/-- C7: `for_installation` returns the cached token — making no
token-exchange call — exactly when the cache holds an entry for the
installation id whose expiry lies more than 5 minutes in the future.
Otherwise it exchanges a fresh token (`exchanged = true`), returns it, and
replaces the cache entry with expiry the parsed `expires_at`, or
now + 55 minutes when the field is absent or unparsable; entries of other
installation ids are untouched. -/
theorem for_installation_cache_spec
    (parse_rfc3339 : String → Option Int) (now : Int)
    (cache : List (Nat × CachedToken)) (iid : Nat) (resp : Json) :
    (∀ ct, cache_get cache iid = some ct → ct.expires_at > now + 5 * 60 →
      for_installation parse_rfc3339 now cache iid resp = ⟨.ok ct.token, false, cache⟩) ∧
    ((∀ ct, cache_get cache iid = some ct → ct.expires_at ≤ now + 5 * 60) →
      (for_installation parse_rfc3339 now cache iid resp).exchanged = true ∧
      ∀ tok, (resp.idx "token").as_str = some tok →
        (for_installation parse_rfc3339 now cache iid resp).token = .ok tok ∧
        (∀ j, j ≠ iid →
          cache_get (for_installation parse_rfc3339 now cache iid resp).cache j =
            cache_get cache j) ∧
        ((resp.idx "expires_at").as_str = none →
          cache_get (for_installation parse_rfc3339 now cache iid resp).cache iid =
            some ⟨tok, now + 55 * 60⟩) ∧
        (∀ es, (resp.idx "expires_at").as_str = some es → parse_rfc3339 es = none →
          cache_get (for_installation parse_rfc3339 now cache iid resp).cache iid =
            some ⟨tok, now + 55 * 60⟩) ∧
        (∀ es t, (resp.idx "expires_at").as_str = some es → parse_rfc3339 es = some t →
          cache_get (for_installation parse_rfc3339 now cache iid resp).cache iid =
            some ⟨tok, t⟩)) := by
  constructor
  · intro ct hct hfresh
    simp only [for_installation, hct]
    rw [if_pos hfresh]
  · intro hstale
    have hrefresh : for_installation parse_rfc3339 now cache iid resp =
        for_installation_refresh parse_rfc3339 now cache iid resp := by
      rcases hct : cache_get cache iid with _ | ct
      · simp only [for_installation, hct]
      · have := hstale ct hct
        simp only [for_installation, hct]
        rw [if_neg (by omega)]
    rw [hrefresh]
    match htok : (resp.idx "token").as_str with
    | none =>
      refine ⟨?_, ?_⟩
      · simp only [for_installation_refresh, htok]
      · intro tok htok'
        exact Option.noConfusion htok'
    | some tok0 =>
      refine ⟨?_, ?_⟩
      · simp only [for_installation_refresh, htok]
      · intro tok htok'
        cases htok'
        match hexp : (resp.idx "expires_at").as_str with
        | none =>
          refine ⟨?_, ?_, ?_, ?_, ?_⟩
          · simp only [for_installation_refresh, htok, hexp]
          · intro j hj
            simp only [for_installation_refresh, htok, hexp]
            exact cache_get_insert_ne cache iid j _ hj
          · intro _
            simp only [for_installation_refresh, htok, hexp]
            exact cache_get_insert_self cache iid _
          · intro es hes
            exact Option.noConfusion hes
          · intro es t hes
            exact Option.noConfusion hes
        | some es0 =>
          match hp : parse_rfc3339 es0 with
          | none =>
            refine ⟨?_, ?_, ?_, ?_, ?_⟩
            · simp only [for_installation_refresh, htok, hexp, hp]
            · intro j hj
              simp only [for_installation_refresh, htok, hexp, hp]
              exact cache_get_insert_ne cache iid j _ hj
            · intro hnone
              exact Option.noConfusion hnone
            · intro es hes hpn
              cases hes
              simp only [for_installation_refresh, htok, hexp, hp]
              exact cache_get_insert_self cache iid _
            · intro es t hes hpt
              cases hes
              rw [hp] at hpt
              exact Option.noConfusion hpt
          | some t0 =>
            refine ⟨?_, ?_, ?_, ?_, ?_⟩
            · simp only [for_installation_refresh, htok, hexp, hp]
            · intro j hj
              simp only [for_installation_refresh, htok, hexp, hp]
              exact cache_get_insert_ne cache iid j _ hj
            · intro hnone
              exact Option.noConfusion hnone
            · intro es hes hpn
              cases hes
              rw [hp] at hpn
              exact Option.noConfusion hpn
            · intro es t hes hpt
              cases hes
              rw [hp] at hpt
              cases hpt
              simp only [for_installation_refresh, htok, hexp, hp]
              exact cache_get_insert_self cache iid _

/-- Witness for C7: a fresh cache entry is reused without exchange, and a
miss exchanges and caches a token with the 55-minute fallback expiry. -/
theorem for_installation_cache_spec_witness :
    for_installation (fun _ => none) 0 [(7, ⟨"tokA", 1000⟩)] 7 Json.null =
      ⟨.ok "tokA", false, [(7, ⟨"tokA", 1000⟩)]⟩ ∧
    cache_get (for_installation (fun _ => none) 0 [] 7
      (Json.obj [("token", .str "tokB")])).cache 7 = some ⟨"tokB", 0 + 55 * 60⟩ :=
  ⟨(for_installation_cache_spec (fun _ => none) 0 [(7, ⟨"tokA", 1000⟩)] 7 Json.null).1
      ⟨"tokA", 1000⟩ rfl (by norm_num),
    (((for_installation_cache_spec (fun _ => none) 0 [] 7
        (Json.obj [("token", .str "tokB")])).2
      (fun ct hct => Option.noConfusion hct)).2 "tokB" rfl).2.2.1 rfl⟩

/- ── issue_linker.rs: the three regexes ──────────────────────────────── -/

/-- `(?i)[A-Z]`: an ASCII letter (the repository's tokens are ASCII; the
Unicode case-folding classes of the regex crate are restricted to ASCII in
this model). -/
def ascii_letter (c : Char) : Bool :=
  ('A' ≤ c && c ≤ 'Z') || ('a' ≤ c && c ≤ 'z')

/-- `\d`, restricted to the ASCII digits the code ever produces ids from. -/
def ascii_digit (c : Char) : Bool :=
  '0' ≤ c && c ≤ '9'

/-- ASCII upper-casing, the relevant fragment of `str::to_uppercase` (the
matched tokens consist of ASCII letters, dash and digits). -/
def ascii_to_upper (c : Char) : Char :=
  if 'a' ≤ c && c ≤ 'z' then Char.ofNat (c.toNat - 32) else c

/-- ASCII lower-casing for case-insensitive keyword comparison. -/
def ascii_to_lower (c : Char) : Char :=
  if 'A' ≤ c && c ≤ 'Z' then Char.ofNat (c.toNat + 32) else c

/-- A match of `([A-Z]{2,10})-(\d+)` (case-insensitive) anchored at the
start of `l`: the greedy letter run (between 2 and 10 letters — a longer
run cannot back off, because the character after a shorter prefix would
still be a letter, never the required dash), the dash, and the greedy digit
run.  Returns the letters, the digits, and the remainder after the match. -/
def issue_id_at (l : List Char) : Option (List Char × List Char × List Char) :=
  let ls := l.takeWhile ascii_letter
  if 2 ≤ ls.length && ls.length ≤ 10 then
    match l.drop ls.length with
    | '-' :: rest =>
      let ds := rest.takeWhile ascii_digit
      if 1 ≤ ds.length then some (ls, ds, rest.drop ds.length) else none
    | _ => none
  else none

/-- `ISSUE_ID_REGEX.captures_iter`: all non-overlapping matches of
`(?i)([A-Z]{2,10})-(\d+)`, leftmost first, resuming after each match.  The
fuel argument only bounds the recursion; every step consumes at least one
character, so `l.length` fuel is always enough. -/
def issue_id_scan : Nat → List Char → List (List Char × List Char)
  | 0, _ => []
  | _, [] => []
  | fuel + 1, c :: cs =>
    match issue_id_at (c :: cs) with
    | some (ls, ds, rest) => (ls, ds) :: issue_id_scan fuel rest
    | none => issue_id_scan fuel cs

/-- The walk of `BRANCH_ISSUE_REGEX` = `(?i)(?:^|/)([A-Z]{2,10}-\d+)`:
positions are tried left to right; the group may start at position 0 (the
`^` branch) or right after a `/` (the `/` branch), and the first position
where the group matches yields the captured token. -/
def branch_issue_find : Nat → Bool → List Char → Option (List Char)
  | 0, _, _ => none
  | _, _, [] => none
  | fuel + 1, allowed, c :: cs =>
    if allowed then
      match issue_id_at (c :: cs) with
      | some (ls, ds, _) => some (ls ++ '-' :: ds)
      | none => branch_issue_find fuel (c == '/') cs
    else branch_issue_find fuel (c == '/') cs

/-- `BRANCH_ISSUE_REGEX.captures`: capture group 1 of the first match. -/
def branch_issue_match (l : List Char) : Option (List Char) :=
  branch_issue_find (l.length + 1) true l

/-- Case-insensitive literal keyword match at the start of `l`; returns the
remainder. -/
def match_keyword_ci : List Char → List Char → Option (List Char)
  | [], l => some l
  | _ :: _, [] => none
  | k :: ks, c :: cs => if ascii_to_lower c == k then match_keyword_ci ks cs else none

/-- `\s` (the inputs under study use ASCII whitespace). -/
def is_space (c : Char) : Bool :=
  c == ' ' || c == '\t' || c == '\n' || c == '\r' || c.toNat == 11 || c.toNat == 12

/-- `\s+#(\d+)` anchored at the start of `l`: at least one whitespace, a
hash, a greedy nonempty digit run; returns the digits and the remainder. -/
def close_ref_after_keyword (l : List Char) : Option (List Char × List Char) :=
  let sp := l.takeWhile is_space
  if 1 ≤ sp.length then
    match l.drop sp.length with
    | '#' :: rest =>
      let ds := rest.takeWhile ascii_digit
      if 1 ≤ ds.length then some (ds, rest.drop ds.length) else none
    | _ => none
  else none

/-- The alternation `fix(?:es|ed)?|close[sd]?|resolve[sd]?` in the order
the regex engine tries the branches (each optional suffix greedily first,
then the bare keyword). -/
def close_keyword_variants : List (List Char) :=
  [['f','i','x','e','s'], ['f','i','x','e','d'], ['f','i','x'],
   ['c','l','o','s','e','s'], ['c','l','o','s','e','d'], ['c','l','o','s','e'],
   ['r','e','s','o','l','v','e','s'], ['r','e','s','o','l','v','e','d'],
   ['r','e','s','o','l','v','e']]

/-- One attempt of `GITHUB_CLOSE_REGEX` anchored at the start of `l`. -/
def close_try (l : List Char) : Option (List Char × List Char) :=
  close_keyword_variants.findSome?
    (fun kw => (match_keyword_ci kw l).bind close_ref_after_keyword)

/-- `GITHUB_CLOSE_REGEX.captures_iter`: every non-overlapping match of
`(?i)(?:fix(?:es|ed)?|close[sd]?|resolve[sd]?)\s+#(\d+)`, as digit runs. -/
def close_scan : Nat → List Char → List (List Char)
  | 0, _ => []
  | _, [] => []
  | fuel + 1, c :: cs =>
    match close_try (c :: cs) with
    | some (ds, rest) => ds :: close_scan fuel rest
    | none => close_scan fuel cs

/-- Digit-run value, and `str::parse::<i32>().unwrap_or(0)`: an overflowing
run parses to 0 (and is then skipped by the `> 0` guard). -/
def digits_to_nat (ds : List Char) : Nat :=
  ds.foldl (fun acc c => acc * 10 + (c.toNat - 48)) 0

/-- `cap.get(1).unwrap().as_str().parse::<i32>().unwrap_or(0)`. -/
def parse_i32 (ds : List Char) : Int :=
  if digits_to_nat ds ≤ 2147483647 then (digits_to_nat ds : Int) else 0

/- ── issue_linker.rs: find_linked_issue ──────────────────────────────── -/

/-- The columns of the `issues` table read by the issue linker
(`find_issue_by_display_id` selects `id` by `project_id, display_id`). -/
structure LinkerIssueRow where
  id : Nat
  project_id : Nat
  display_id : String

/-- A row of `github_issue_links` as read by the linker fallback. -/
structure IssueLinkRow where
  issue_id : Nat
  github_repo_id : Int
  github_issue_number : Int

/-- The two tables the linker queries. -/
structure LinkerDb where
  issues : List LinkerIssueRow
  issue_links : List IssueLinkRow

/-- `find_issue_by_display_id` of `src/backend/src/github/issue_linker.rs`. -/
def find_issue_by_display_id (db : LinkerDb) (project_id : Nat)
    (display_id : String) : Option Nat :=
  (db.issues.find? (fun r =>
    r.project_id == project_id && r.display_id == display_id)).map (·.id)

/-- `find_issue_by_github_number` of
`src/backend/src/github/issue_linker.rs`. -/
def find_issue_by_github_number (db : LinkerDb) (github_repo_id : Int)
    (github_issue_number : Int) : Option Nat :=
  (db.issue_links.find? (fun r =>
    r.github_repo_id == github_repo_id &&
    r.github_issue_number == github_issue_number)).map (·.issue_id)

/-- Strategy 1 of `find_linked_issue` (branch name): first
`BRANCH_ISSUE_REGEX` capture, upper-cased, looked up as a display id in the
mapping's project.  Only the first token is tried. -/
def branch_strategy (db : LinkerDb) (mapping : RepoMappingRow)
    (branch_name : String) : Option Nat :=
  match branch_issue_match branch_name.data with
  | some tok =>
    find_issue_by_display_id db mapping.project_id
      (String.mk (tok.map ascii_to_upper))
  | none => none

/-- Strategies 2 and 3 of `find_linked_issue` (title, then body): every
`ISSUE_ID_REGEX` capture in order of appearance, upper-cased letters joined
to the digits, first successful display-id lookup wins. -/
def scan_tokens_strategy (db : LinkerDb) (mapping : RepoMappingRow)
    (text : String) : Option Nat :=
  (issue_id_scan (text.data.length + 1) text.data).findSome? (fun cap =>
    find_issue_by_display_id db mapping.project_id
      (String.mk (cap.1.map ascii_to_upper ++ '-' :: cap.2)))

/-- Strategy 4 of `find_linked_issue` (closing keywords): every
`GITHUB_CLOSE_REGEX` reference in the body, parsed with `unwrap_or(0)`,
looked up as a GitHub issue number of the mapping's repo when positive. -/
def close_strategy (db : LinkerDb) (mapping : RepoMappingRow)
    (pr_body : String) : Option Nat :=
  (close_scan (pr_body.data.length + 1) pr_body.data).findSome? (fun ds =>
    if parse_i32 ds > 0 then
      find_issue_by_github_number db mapping.github_repo_id (parse_i32 ds)
    else none)

/-- `find_linked_issue` of `src/backend/src/github/issue_linker.rs`: branch
name first (first regex match only; a failed lookup does not try further
branch tokens), then every issue-id token of the title in order, then every
issue-id token of the body, then every closing-keyword reference of the
body, looked up as a repo issue number when positive.  The first successful
lookup wins; no match is `none`, not an error. -/
def find_linked_issue (db : LinkerDb) (mapping : RepoMappingRow)
    (branch_name pr_title pr_body : String) : Option Nat :=
  match branch_strategy db mapping branch_name with
  | some issue => some issue
  | none =>
  match scan_tokens_strategy db mapping pr_title with
  | some issue => some issue
  | none =>
  match scan_tokens_strategy db mapping pr_body with
  | some issue => some issue
  | none => close_strategy db mapping pr_body

/-- C4: the four linking strategies run in fixed priority order with the
first successful lookup winning — branch token before title scan, title
before body, body issue-ids before the closing-keyword fallback; the branch
pattern matches a `/`-anchored 2–10-letter dash digit token and upper-cases
it; and concretely, for branch `feature/BAA-7-x`, title `Fixes BAA-99`,
empty body, the linker resolves to the issue with display id `BAA-7`
whenever both `BAA-7` and `BAA-99` exist in the mapping's project. -/
theorem find_linked_issue_priority :
    (∀ db mapping b t bo i, branch_strategy db mapping b = some i →
      find_linked_issue db mapping b t bo = some i) ∧
    (∀ db mapping b t bo i, branch_strategy db mapping b = none →
      scan_tokens_strategy db mapping t = some i →
      find_linked_issue db mapping b t bo = some i) ∧
    (∀ db mapping b t bo i, branch_strategy db mapping b = none →
      scan_tokens_strategy db mapping t = none →
      scan_tokens_strategy db mapping bo = some i →
      find_linked_issue db mapping b t bo = some i) ∧
    (∀ db mapping b t bo, branch_strategy db mapping b = none →
      scan_tokens_strategy db mapping t = none →
      scan_tokens_strategy db mapping bo = none →
      find_linked_issue db mapping b t bo = close_strategy db mapping bo) ∧
    branch_issue_match "feature/BAA-7-x".data = some ['B','A','A','-','7'] ∧
    (∀ db mapping i7 i99,
      find_issue_by_display_id db mapping.project_id "BAA-7" = some i7 →
      find_issue_by_display_id db mapping.project_id "BAA-99" = some i99 →
      find_linked_issue db mapping "feature/BAA-7-x" "Fixes BAA-99" "" = some i7) := by
  refine ⟨?_, ?_, ?_, ?_, by decide, ?_⟩
  · intro db mapping b t bo i h
    simp [find_linked_issue, h]
  · intro db mapping b t bo i h1 h2
    simp [find_linked_issue, h1, h2]
  · intro db mapping b t bo i h1 h2 h3
    simp [find_linked_issue, h1, h2, h3]
  · intro db mapping b t bo h1 h2 h3
    simp [find_linked_issue, h1, h2, h3]
  · intro db mapping i7 i99 h7 _
    have hbr : branch_strategy db mapping "feature/BAA-7-x" = some i7 := by
      unfold branch_strategy
      have hb : branch_issue_match "feature/BAA-7-x".data =
          some ['B','A','A','-','7'] := by decide
      rw [hb]
      show find_issue_by_display_id db mapping.project_id
        (String.mk (['B','A','A','-','7'].map ascii_to_upper)) = some i7
      have hup : String.mk (['B','A','A','-','7'].map ascii_to_upper) = "BAA-7" := by
        decide
      rw [hup]
      exact h7
    simp [find_linked_issue, hbr]

/-- Witness for C4 on a concrete two-issue project: the branch token wins
over the title token. -/
theorem find_linked_issue_priority_witness :
    find_issue_by_display_id ⟨[⟨1, 5, "BAA-7"⟩, ⟨2, 5, "BAA-99"⟩], []⟩ 5 "BAA-7" =
      some 1 ∧
    find_issue_by_display_id ⟨[⟨1, 5, "BAA-7"⟩, ⟨2, 5, "BAA-99"⟩], []⟩ 5 "BAA-99" =
      some 2 ∧
    find_linked_issue ⟨[⟨1, 5, "BAA-7"⟩, ⟨2, 5, "BAA-99"⟩], []⟩
      ⟨10, 5, 77, "bidirectional", true, true, true, false, Json.null, true, 0, 0⟩
      "feature/BAA-7-x" "Fixes BAA-99" "" = some 1 :=
  ⟨rfl, rfl,
    find_linked_issue_priority.2.2.2.2.2
      ⟨[⟨1, 5, "BAA-7"⟩, ⟨2, 5, "BAA-99"⟩], []⟩
      ⟨10, 5, 77, "bidirectional", true, true, true, false, Json.null, true, 0, 0⟩
      1 2 rfl rfl⟩

/- ── SHA-256 and HMAC-SHA256 (the `sha2` and `hmac` crates), bytes ───── -/

/-- Truncation to a 32-bit word. -/
def w32 (x : Nat) : Nat := x % 4294967296

/-- 32-bit right rotation. -/
def rotr32 (n x : Nat) : Nat := w32 ((x >>> n) ||| (x <<< (32 - n)))

/-- The 64 SHA-256 round constants. -/
def sha256K : List Nat :=
  [1116352408, 1899447441, 3049323471, 3921009573, 961987163,
   1508970993, 2453635748, 2870763221, 3624381080, 310598401,
   607225278, 1426881987, 1925078388, 2162078206, 2614888103,
   3248222580, 3835390401, 4022224774, 264347078, 604807628,
   770255983, 1249150122, 1555081692, 1996064986, 2554220882,
   2821834349, 2952996808, 3210313671, 3336571891, 3584528711,
   113926993, 338241895, 666307205, 773529912, 1294757372,
   1396182291, 1695183700, 1986661051, 2177026350, 2456956037,
   2730485921, 2820302411, 3259730800, 3345764771, 3516065817,
   3600352804, 4094571909, 275423344, 430227734, 506948616,
   659060556, 883997877, 958139571, 1322822218, 1537002063,
   1747873779, 1955562222, 2024104815, 2227730452, 2361852424,
   2428436474, 2756734187, 3204031479, 3329325298]

/-- The SHA-256 initial hash state. -/
def sha256H0 : List Nat :=
  [1779033703, 3144134277, 1013904242, 2773480762, 1359893119,
   2600822924, 528734635, 1541459225]

/-- SHA-256 padding: `0x80`, zeros to 56 mod 64, 8-byte big-endian bit
length. -/
def sha256Pad (msg : List Nat) : List Nat :=
  let padLen := (64 + 55 - msg.length % 64) % 64
  let bitLen := msg.length * 8
  msg ++ 0x80 :: List.replicate padLen 0 ++
    [bitLen >>> 56 % 256, bitLen >>> 48 % 256, bitLen >>> 40 % 256,
     bitLen >>> 32 % 256, bitLen >>> 24 % 256, bitLen >>> 16 % 256,
     bitLen >>> 8 % 256, bitLen % 256]

/-- Big-endian bytes to 32-bit words. -/
def bytesToWords : List Nat → List Nat
  | b0 :: b1 :: b2 :: b3 :: rest =>
    ((b0 <<< 24) ||| (b1 <<< 16) ||| (b2 <<< 8) ||| b3) :: bytesToWords rest
  | _ => []

/-- 32-bit words to big-endian bytes. -/
def wordsToBytes : List Nat → List Nat
  | [] => []
  | w :: rest => (w >>> 24 % 256) :: (w >>> 16 % 256) :: (w >>> 8 % 256) ::
      (w % 256) :: wordsToBytes rest

/-- One message-schedule extension step (appends `W[t]` for the next t). -/
def sha256ExtendStep (ws : List Nat) : List Nat :=
  let n := ws.length
  let s0 :=
    let x := ws.getD (n - 15) 0
    rotr32 7 x ^^^ rotr32 18 x ^^^ (x >>> 3)
  let s1 :=
    let x := ws.getD (n - 2) 0
    rotr32 17 x ^^^ rotr32 19 x ^^^ (x >>> 10)
  ws ++ [w32 (ws.getD (n - 16) 0 + s0 + ws.getD (n - 7) 0 + s1)]

/-- The 64-word message schedule of one 16-word block. -/
def sha256Schedule (block : List Nat) : List Nat :=
  (List.range 48).foldl (fun acc _ => sha256ExtendStep acc) block

/-- One SHA-256 round on the state `[a,b,c,d,e,f,g,h]`. -/
def sha256Round (W : List Nat) (st : List Nat) (i : Nat) : List Nat :=
  match st with
  | [a, b, c, d, e, f, g, h] =>
    let S1 := rotr32 6 e ^^^ rotr32 11 e ^^^ rotr32 25 e
    let ch := (e &&& f) ^^^ ((e ^^^ 4294967295) &&& g)
    let t1 := w32 (h + S1 + ch + sha256K.getD i 0 + W.getD i 0)
    let S0 := rotr32 2 a ^^^ rotr32 13 a ^^^ rotr32 22 a
    let mj := (a &&& b) ^^^ (a &&& c) ^^^ (b &&& c)
    let t2 := w32 (S0 + mj)
    [w32 (t1 + t2), a, b, c, w32 (d + t1), e, f, g]
  | _ => st

/-- Compress one 16-word block into the state. -/
def sha256Compress (h : List Nat) (block : List Nat) : List Nat :=
  let W := sha256Schedule block
  let st := (List.range 64).foldl (sha256Round W) h
  List.zipWith (fun x y => w32 (x + y)) h st

/-- Fold the compression over the 16-word chunks of `ws` (fuel-bounded
recursion; `ws.length` fuel always suffices). -/
def sha256Chunks : Nat → List Nat → List Nat → List Nat
  | 0, h, _ => h
  | fuel + 1, h, ws =>
    match ws with
    | [] => h
    | _ => sha256Chunks fuel (sha256Compress h (ws.take 16)) (ws.drop 16)

/-- SHA-256 of a byte list. -/
def sha256 (msg : List Nat) : List Nat :=
  let ws := bytesToWords (sha256Pad msg)
  wordsToBytes (sha256Chunks (ws.length + 1) sha256H0 ws)

/-- HMAC-SHA256 (`Hmac<Sha256>` with `new_from_slice`, which accepts keys
of any length): keys longer than the 64-byte block are hashed, the key is
zero-padded, and the usual ipad/opad construction applies. -/
def hmacSha256 (key msg : List Nat) : List Nat :=
  let k0 := if 64 < key.length then sha256 key else key
  let k := k0 ++ List.replicate (64 - k0.length) 0
  sha256 ((k.map (fun b => b ^^^ 0x5c)) ++
    sha256 ((k.map (fun b => b ^^^ 0x36)) ++ msg))

/- ── Hex encoding and decoding (the `hex` crate) ─────────────────────── -/

/-- Value of one hex digit; both letter cases decode (`hex::decode`). -/
def hex_digit_value (c : Char) : Option Nat :=
  if '0' ≤ c && c ≤ '9' then some (c.toNat - 48)
  else if 'a' ≤ c && c ≤ 'f' then some (c.toNat - 87)
  else if 'A' ≤ c && c ≤ 'F' then some (c.toNat - 55)
  else none

/-- `hex::decode` on a character list: pairs of hex digits; odd length or a
non-digit is an error. -/
def hex_decode_chars : List Char → Option (List Nat)
  | [] => some []
  | [_] => none
  | h :: l :: rest =>
    match hex_digit_value h, hex_digit_value l, hex_decode_chars rest with
    | some hv, some lv, some bs => some ((hv * 16 + lv) :: bs)
    | _, _, _ => none

/-- `hex::decode`. -/
def hex_decode (s : String) : Option (List Nat) := hex_decode_chars s.data

/-- Lower-case hex digit (`hex::encode` emits lower case). -/
def hex_digit_lower (n : Nat) : Char :=
  if n < 10 then Char.ofNat (48 + n) else Char.ofNat (87 + n)

/-- `hex::encode` (lower case). -/
def hex_encode (bs : List Nat) : String :=
  String.mk ((bs.map (fun b => [hex_digit_lower (b / 16 % 16),
    hex_digit_lower (b % 16)])).flatten)

/-- Upper-case hex digit. -/
def hex_digit_upper (n : Nat) : Char :=
  if n < 10 then Char.ofNat (48 + n) else Char.ofNat (55 + n)

/-- The upper-case hex spelling of the same bytes. -/
def hex_encode_upper (bs : List Nat) : String :=
  String.mk ((bs.map (fun b => [hex_digit_upper (b / 16 % 16),
    hex_digit_upper (b % 16)])).flatten)

/-- ASCII text as bytes (every character below U+0080 is one UTF-8 byte). -/
def ascii_bytes (s : String) : List Nat := s.data.map Char.toNat

/-- FIPS 180-2 test vector: SHA-256 of `"abc"`. -/
theorem sha256_abc :
    hex_encode (sha256 (ascii_bytes "abc")) =
      "ba7816bf8f01cfea414140de5dae2223b00361a396177a9cb410ff61f20015ad" := by
  decide

/-- RFC 4231 test case 2: HMAC-SHA256 with key `"Jefe"` and data
`"what do ya want for nothing?"`. -/
theorem hmac_jefe :
    hex_encode (hmacSha256 (ascii_bytes "Jefe")
        (ascii_bytes "what do ya want for nothing?")) =
      "5bdcc146bf60754e6a042426089575c75a003f089d2739839dec58b964ec3843" := by
  decide

/- ── routes/github/webhooks.rs: the webhook receiver ─────────────────── -/

/-- `signature.strip_prefix("sha256=")` on the character level. -/
def sig_strip_chars : List Char → Option (List Char)
  | 's' :: 'h' :: 'a' :: '2' :: '5' :: '6' :: '=' :: rest => some rest
  | _ => none

/-- `signature.strip_prefix("sha256=")`. -/
def sig_strip_sha256 (s : String) : Option String :=
  (sig_strip_chars s.data).map String.mk

/-- `verify_signature` of `src/backend/src/routes/github/webhooks.rs`:
strip the `sha256=` marker, hex-decode the rest, recompute the HMAC over
the raw body with the shared secret, and compare (`verify_slice` fails on
any length mismatch or byte difference; the constant-time aspect of the
comparison has no observable value-level content). -/
def verify_signature (body : List Nat) (secret : List Nat)
    (signature : String) : Bool :=
  match sig_strip_sha256 signature with
  | none => false
  | some hex_sig =>
    match hex_decode hex_sig with
    | none => false
    | some sig_bytes => sig_bytes == hmacSha256 secret body

/-- The row stored by step 5 of `handle` (with `status='pending'` and the
database defaults for the remaining columns). -/
def received_row (delivery_id event_type : String) (payload : Json) : WebhookRow :=
  { delivery_id := delivery_id
    event_type := event_type
    action := (payload.getKey "action").bind Json.as_str
    installation_id :=
      ((payload.getKey "installation").bind (fun i => i.getKey "id")).bind Json.as_i64
    repository_full_name :=
      ((payload.getKey "repository").bind (fun r => r.getKey "full_name")).bind Json.as_str
    sender_login :=
      ((payload.getKey "sender").bind (fun s => s.getKey "login")).bind Json.as_str
    payload := payload
    status := "pending"
    error_message := none
    processed_at := none
    retry_count := 0 }

/-- The observable outcome of one call to `handle`: the HTTP status, the
`github_webhook_events` table afterwards, and the delivery ids for which a
background processing task was spawned. -/
structure HandleResult where
  status : Nat
  events : List WebhookRow
  spawned : List String

/-- `handle` of `src/backend/src/routes/github/webhooks.rs`.  Headers are
`Option`s (absent signature → 401, absent event type or delivery id →
400); the body is the raw bytes; `serde_json::from_slice` is passed in as
`parse_json` so theorems can quantify over it (a result that holds for
every parser cannot have parsed the body); the configured
`GITHUB_WEBHOOK_SECRET` is `webhook_secret` (the unset-secret 500 path and
store-failure 500 path are outside the model).  Signature verification
failure → 401 before anything else; a known delivery id → 200 with no
parse, no insert, no spawned task; otherwise parse (failure → 400), insert
the `pending` row, spawn processing, and return 200. -/
def handle (parse_json : List Nat → Option Json) (webhook_secret : List Nat)
    (x_hub_signature_256 x_github_event x_github_delivery : Option String)
    (body : List Nat) (events : List WebhookRow) : HandleResult :=
  match x_hub_signature_256 with
  | none => ⟨401, events, []⟩
  | some signature =>
  match x_github_event with
  | none => ⟨400, events, []⟩
  | some event_type =>
  match x_github_delivery with
  | none => ⟨400, events, []⟩
  | some delivery_id =>
  if verify_signature body webhook_secret signature then
    if events.any (fun r => r.delivery_id == delivery_id) then
      ⟨200, events, []⟩
    else
      match parse_json body with
      | none => ⟨400, events, []⟩
      | some payload =>
        ⟨200, events ++ [received_row delivery_id event_type payload],
          [delivery_id]⟩
  else ⟨401, events, []⟩

theorem sig_strip_chars_eq_some (l r : List Char) :
    sig_strip_chars l = some r ↔
      l = 's' :: 'h' :: 'a' :: '2' :: '5' :: '6' :: '=' :: r := by
  constructor
  · intro h
    unfold sig_strip_chars at h
    split at h
    · cases h; rfl
    · cases h
  · intro h
    subst h
    rfl

theorem sig_strip_sha256_eq_some (s h : String) :
    sig_strip_sha256 s = some h ↔ s = "sha256=" ++ h := by
  unfold sig_strip_sha256
  rw [Option.map_eq_some']
  constructor
  · rintro ⟨r, hr, rfl⟩
    have hdata := (sig_strip_chars_eq_some _ _).mp hr
    apply String.ext
    rw [hdata]
    rfl
  · rintro rfl
    refine ⟨h.data, (sig_strip_chars_eq_some _ _).mpr ?_, by cases h; rfl⟩
    cases h
    rfl

/-- `verify_signature` succeeds exactly on `sha256=` followed by a hex
spelling (in either letter case) of the body's HMAC under the secret. -/
theorem verify_signature_eq_true (body secret : List Nat) (s : String) :
    verify_signature body secret s = true ↔
      ∃ h, s = "sha256=" ++ h ∧
        hex_decode h = some (hmacSha256 secret body) := by
  unfold verify_signature
  rcases hss : sig_strip_sha256 s with _ | hx
  · constructor
    · intro h
      cases h
    · rintro ⟨h, rfl, _⟩
      rw [(sig_strip_sha256_eq_some _ _).mpr rfl] at hss
      cases hss
  · have hsx : s = "sha256=" ++ hx := (sig_strip_sha256_eq_some _ _).mp hss
    have hcancel : ∀ h : String, s = "sha256=" ++ h → h = hx := by
      intro h heq
      rw [hsx] at heq
      have hdd := congrArg String.data heq
      simp only [String.data_append] at hdd
      exact String.ext (List.append_cancel_left hdd.symm)
    rcases hd : hex_decode hx with _ | bs <;> simp only [hd]
    · constructor
      · intro hcontra
        exact absurd hcontra Bool.false_ne_true
      · rintro ⟨h, heq, hdec⟩
        rw [hcancel h heq, hd] at hdec
        cases hdec
    · simp only [beq_iff_eq]
      constructor
      · intro hbs
        exact ⟨hx, hsx, by rw [hd, hbs]⟩
      · rintro ⟨h, heq, hdec⟩
        rw [hcancel h heq, hd] at hdec
        cases hdec
        rfl

/-- C1 (amended): every request (with event-type and delivery headers
present) whose signature header is not `sha256=` followed by a hexadecimal
spelling — upper- or lower-case digits — of the HMAC-SHA256 of the exact
raw body under the configured secret, including malformed and
wrongly-prefixed headers, is answered 401, the body is never JSON-parsed
(the parser is universally quantified and the result does not depend on
it), and no WebhookEvent row is inserted and no processing spawned. -/
theorem handle_rejects_bad_signature
    (parse_json : List Nat → Option Json) (webhook_secret : List Nat)
    (signature event_type delivery_id : String) (body : List Nat)
    (events : List WebhookRow)
    (hbad : ∀ h, signature = "sha256=" ++ h →
      hex_decode h ≠ some (hmacSha256 webhook_secret body)) :
    handle parse_json webhook_secret (some signature) (some event_type)
      (some delivery_id) body events = ⟨401, events, []⟩ := by
  have hv : verify_signature body webhook_secret signature = false := by
    rw [Bool.eq_false_iff]
    intro htrue
    rcases (verify_signature_eq_true body webhook_secret signature).mp htrue with
      ⟨h, heq, hdec⟩
    exact hbad h heq hdec
  simp [handle, hv]

/-- C1 counterexample: the upper-case hex spelling of the correct HMAC is
not equal to `sha256=` + the (lower-case) hex HMAC — so the original claim
demands a 401 — yet `hex::decode` accepts both cases, and the request is
answered 200, with a row stored and processing spawned. -/
theorem handle_uppercase_hex_cex :
    ("sha256=" ++ hex_encode_upper (hmacSha256 (ascii_bytes "topsecret")
        (ascii_bytes "abc")) ≠
      "sha256=" ++ hex_encode (hmacSha256 (ascii_bytes "topsecret")
        (ascii_bytes "abc"))) ∧
    (handle (fun _ => some (Json.obj [])) (ascii_bytes "topsecret")
      (some ("sha256=" ++ hex_encode_upper (hmacSha256 (ascii_bytes "topsecret")
        (ascii_bytes "abc"))))
      (some "push") (some "d1") (ascii_bytes "abc") []).status = 200 ∧
    (handle (fun _ => some (Json.obj [])) (ascii_bytes "topsecret")
      (some ("sha256=" ++ hex_encode_upper (hmacSha256 (ascii_bytes "topsecret")
        (ascii_bytes "abc"))))
      (some "push") (some "d1") (ascii_bytes "abc") []).events.length = 1 ∧
    (handle (fun _ => some (Json.obj [])) (ascii_bytes "topsecret")
      (some ("sha256=" ++ hex_encode_upper (hmacSha256 (ascii_bytes "topsecret")
        (ascii_bytes "abc"))))
      (some "push") (some "d1") (ascii_bytes "abc") []).spawned = ["d1"] ∧
    handle (fun _ => some (Json.obj [])) (ascii_bytes "topsecret") (some "bogus")
      none (some "d1") (ascii_bytes "abc") [] = ⟨400, [], []⟩ := by
  refine ⟨by decide, by decide, by decide, by decide, rfl⟩

/-- Witness for C1: a header that does not even carry the `sha256=` marker
is rejected with 401 and stores nothing. -/
theorem handle_rejects_bad_signature_witness :
    (∀ h : String, "bogus" = "sha256=" ++ h →
      hex_decode h ≠ some (hmacSha256 (ascii_bytes "k") [97])) ∧
    handle (fun _ => none) (ascii_bytes "k") (some "bogus") (some "push")
      (some "d1") [97] [] = ⟨401, [], []⟩ := by
  have hb : ∀ h : String, "bogus" = "sha256=" ++ h →
      hex_decode h ≠ some (hmacSha256 (ascii_bytes "k") [97]) := by
    intro h heq
    have hl := congrArg String.length heq
    rw [String.length_append] at hl
    have hlb : "bogus".length = 5 := rfl
    have hls : "sha256=".length = 7 := rfl
    rw [hlb, hls] at hl
    omega
  exact ⟨hb, handle_rejects_bad_signature (fun _ => none) (ascii_bytes "k")
    "bogus" "push" "d1" [97] [] hb⟩

/-- C2: a validly signed request whose delivery id already has a stored row
is answered 200 immediately — no second row, no parse (any parser gives the
same result), no spawned processing; consequently, delivering the same id
twice yields exactly one row: the first (fresh) delivery stores one row and
spawns processing, and the second returns 200 leaving the table as it
was. -/
theorem handle_idempotent_delivery
    (parse_json : List Nat → Option Json) (webhook_secret : List Nat)
    (signature event_type delivery_id : String) (body : List Nat)
    (events : List WebhookRow)
    (hsig : verify_signature body webhook_secret signature = true) :
    ((∃ r ∈ events, r.delivery_id = delivery_id) →
      handle parse_json webhook_secret (some signature) (some event_type)
        (some delivery_id) body events = ⟨200, events, []⟩) ∧
    (∀ payload, (∀ r ∈ events, r.delivery_id ≠ delivery_id) →
      parse_json body = some payload →
      handle parse_json webhook_secret (some signature) (some event_type)
          (some delivery_id) body events =
        ⟨200, events ++ [received_row delivery_id event_type payload],
          [delivery_id]⟩ ∧
      (∀ parse2 : List Nat → Option Json,
        handle parse2 webhook_secret (some signature) (some event_type)
            (some delivery_id) body
            (events ++ [received_row delivery_id event_type payload]) =
          ⟨200, events ++ [received_row delivery_id event_type payload], []⟩) ∧
      (events ++ [received_row delivery_id event_type payload]).countP
          (fun r => r.delivery_id == delivery_id) = 1) := by
  constructor
  · rintro ⟨r, hr, hrid⟩
    have hany : events.any (fun r => r.delivery_id == delivery_id) = true :=
      List.any_eq_true.mpr ⟨r, hr, by simp [hrid]⟩
    simp [handle, hsig, hany]
  · intro payload hfresh hparse
    have hany : events.any (fun r => r.delivery_id == delivery_id) = false := by
      rw [Bool.eq_false_iff]
      intro hx
      rcases List.any_eq_true.mp hx with ⟨r, hr, hrid⟩
      exact hfresh r hr (by simpa using hrid)
    refine ⟨by simp [handle, hsig, hany, hparse], ?_, ?_⟩
    · intro parse2
      have hany2 : (events ++ [received_row delivery_id event_type payload]).any
          (fun r => r.delivery_id == delivery_id) = true :=
        List.any_eq_true.mpr ⟨received_row delivery_id event_type payload,
          by simp, by simp [received_row]⟩
      simp [handle, hsig, hany2]
    · have h0 : events.countP (fun r => r.delivery_id == delivery_id) = 0 :=
        List.countP_eq_zero.mpr (fun r hr => by simpa using hfresh r hr)
      rw [List.countP_append, h0]
      simp [List.countP_cons, received_row]

/-- Witness for C2: a correctly signed delivery whose id is already stored
is acknowledged with 200 and the table is unchanged. -/
theorem handle_idempotent_delivery_witness :
    verify_signature [97] (ascii_bytes "k")
      ("sha256=" ++ hex_encode (hmacSha256 (ascii_bytes "k") [97])) = true ∧
    handle (fun _ => none) (ascii_bytes "k")
      (some ("sha256=" ++ hex_encode (hmacSha256 (ascii_bytes "k") [97])))
      (some "push") (some "d1") [97]
      [⟨"d1", "push", none, none, none, none, Json.null, "pending", none, none, 0⟩] =
      ⟨200,
        [⟨"d1", "push", none, none, none, none, Json.null, "pending", none, none, 0⟩],
        []⟩ :=
  ⟨by decide,
    (handle_idempotent_delivery (fun _ => none) (ascii_bytes "k")
      ("sha256=" ++ hex_encode (hmacSha256 (ascii_bytes "k") [97]))
      "push" "d1" [97]
      [⟨"d1", "push", none, none, none, none, Json.null, "pending", none, none, 0⟩]
      (by decide)).1
      ⟨⟨"d1", "push", none, none, none, none, Json.null, "pending", none, none, 0⟩,
        List.mem_singleton_self _, rfl⟩⟩

/-- Witness for C8 (amended) at a concrete 200-character ASCII title. -/
theorem generate_branch_name_spec_witness :
    (String.mk (List.replicate 200 'x')).length = 200 ∧
    generate_branch_name "BAA-42" (String.mk (List.replicate 200 'x')) =
      some (String.mk
        ('b' :: 'a' :: 'a' :: '-' :: '4' :: '2' :: '-' :: List.replicate 50 'x')) ∧
    ∃ slug : List Char,
      String.mk ('b' :: 'a' :: 'a' :: '-' :: '4' :: '2' :: '-' :: List.replicate 50 'x') =
        String.mk (rust_to_lowercase ("BAA-42" : String).data ++ '-' :: slug) ∧
      slug.length ≤ 50 ∧ utf8Len slug ≤ 50 ∧ slug.getLast? ≠ some '-' :=
  ⟨by decide, by decide,
    generate_branch_name_spec.2 "BAA-42" (String.mk (List.replicate 200 'x'))
      (String.mk
        ('b' :: 'a' :: 'a' :: '-' :: '4' :: '2' :: '-' :: List.replicate 50 'x'))
      (by decide) (by decide)⟩
